import Mathlib

/-!
Verification of the order lifecycle and payment settlement pipeline of the
As Bolsyn marketplace bot.  The definitions below are a shallow embedding of
the Python source: `src/models.py` (data model), `src/bot.py`
(`process_payment_webhook`, `process_buy_callback`, `cmd_complete_order`,
`cmd_cancel_order`, `process_pre_checkout_query`), `src/main.py`
(`handle_payment_webhook`), `src/tasks.py` (`cleanup_expired_orders`) and
`src/earnings.py` (commission and payout logic).  Python `Decimal` values are
modelled as exact rationals (the computations in scope stay far below the
28-significant-digit context, so `Decimal` arithmetic is exact there);
Python `int` is modelled as `Int`; database rows are lists of structures and
a `save()` replaces the row with the same primary key.
-/

namespace AsBolsyn

/-- Model of `OrderStatus` from `src/models.py`. -/
inductive OrderStatus where
  | pending
  | paid
  | completed
  | cancelled
deriving DecidableEq

/-- Model of `PayoutStatus` from `src/models.py`. -/
inductive PayoutStatus where
  | pending
  | processing
  | completed
  | failed
deriving DecidableEq

/-- A datetime, abstracted as a linear instant (`epoch`) together with the
calendar year and month that `datetime.year` / `datetime.month` extract. -/
structure DateTime where
  epoch : Int
  year : Int
  month : Int
deriving DecidableEq

/-- The `Meal` model (`src/models.py`): the fields used by the ordering and
settlement pipeline. -/
structure Meal where
  id : Nat
  vendorId : Nat
  price : ℚ
  quantity : Int
  pickupEndTime : Int
  isActive : Bool
deriving DecidableEq

/-- The `Order` model (`src/models.py`). -/
structure Order where
  id : Nat
  status : OrderStatus
  paymentId : Option String
  quantity : Int
  mealId : Nat
  consumerId : Nat
  createdAt : DateTime
  completedAt : Option DateTime
deriving DecidableEq

/-- The `Commission` model (`src/models.py`). -/
structure Commission where
  commissionRate : ℚ
  effectiveFrom : Int
  effectiveTo : Option Int
deriving DecidableEq

/-- The `VendorEarnings` model (`src/models.py`). -/
structure VendorEarnings where
  orderId : Nat
  vendorId : Nat
  grossAmount : ℚ
  commissionRate : ℚ
  commissionAmount : ℚ
  netAmount : ℚ
  periodYear : Int
  periodMonth : Int
  isPaidOut : Bool
deriving DecidableEq

/-- The `PayoutRequest` model (`src/models.py`). -/
structure PayoutRequest where
  vendorId : Nat
  amount : ℚ
  periodYear : Int
  periodMonth : Int
  status : PayoutStatus
deriving DecidableEq

/-- The metric types recorded by the pipeline (`MetricType` in
`src/models.py`, restricted to the ones the embedded operations emit). -/
inductive MetricType where
  | orderCreated
  | orderPaid
  | orderCompleted
  | orderCancelled
  | earningsCalculated
  | payoutRequested
deriving DecidableEq

/-- A row of the `metrics` table (`track_metric` in `src/metrics.py`),
reduced to the metric type and the related entity id. -/
structure Metric where
  mtype : MetricType
  entityId : Nat
deriving DecidableEq

/-- The database state touched by the pipeline. -/
structure State where
  orders : List Order
  meals : List Meal
  commissions : List Commission
  earnings : List VendorEarnings
  payouts : List PayoutRequest
  metrics : List Metric
deriving DecidableEq

/-- Model of `order.save()`: replace the row with this primary key. -/
def saveOrder (s : State) (o : Order) : State :=
  { s with orders := s.orders.map (fun x => if x.id = o.id then o else x) }

/-- Model of `meal.save()`: replace the row with this primary key. -/
def saveMeal (s : State) (m : Meal) : State :=
  { s with meals := s.meals.map (fun x => if x.id = m.id then m else x) }

/-- Model of `track_metric(...)` (`src/metrics.py`): append a metric row. -/
def trackMetric (s : State) (t : MetricType) (eid : Nat) : State :=
  { s with metrics := s.metrics ++ [⟨t, eid⟩] }

/-- Model of `Order.filter(id=order_id).first()`. -/
def findOrder (s : State) (orderId : Nat) : Option Order :=
  s.orders.find? (fun o => decide (o.id = orderId))

/-- Model of `Meal.get(id=...)` and of the prefetched `order.meal` relation. -/
def findMeal (s : State) (mealId : Nat) : Option Meal :=
  s.meals.find? (fun m => decide (m.id = mealId))

/-- A webhook payload: the fields read by the processor (`payment_id`,
`status`, `order_id`), each possibly absent. -/
structure WebhookData where
  paymentId : Option String
  status : Option String
  orderId : Option Nat
deriving DecidableEq

/-- Python truthiness of `webhook_data.get("payment_id")`: falsy when the
key is absent or the string is empty. -/
def pyFalsy : Option String → Bool
  | none => true
  | some v => decide (v = "")

/-- Model of `process_payment_webhook(webhook_data, signature=None)` from
`src/bot.py` (lines 1422-1478).  Returns the boolean result together with
the updated state.  The `signature` argument is accepted (as in the source)
and never read. -/
def processPaymentWebhook (s : State) (data : WebhookData)
    (signature : Option String) : Bool × State :=
  if pyFalsy data.paymentId || !(data.status == some "completed") then
    (false, s)
  else
    match s.orders.find? (fun o => o.paymentId == data.paymentId) with
    | none => (false, s)
    | some order =>
      if order.status != OrderStatus.pending then
        (true, s)
      else
        let order1 := { order with status := OrderStatus.paid }
        let s1 := saveOrder s order1
        match findMeal s1 order.mealId with
        | none => (false, s1)
        | some meal =>
          let s2 := trackMetric s1 MetricType.orderPaid order.id
          let meal1 := { meal with quantity := max 0 (meal.quantity - order.quantity) }
          let s3 := saveMeal s2 meal1
          (true, s3)

/-- Model of `handle_payment_webhook` from `src/main.py` (lines 25-46): the HTTP
endpoint answers 200 when the processor reports success and 400 otherwise. -/
def handlePaymentWebhook (s : State) (data : WebhookData)
    (signature : Option String) : Nat × State :=
  let r := processPaymentWebhook s data signature
  (if r.1 then 200 else 400, r.2)

/-- Model of `Meal.filter(id=meal_id, is_active=True).first()` as used by
`process_buy_callback`. -/
def findActiveMeal (s : State) (mealId : Nat) : Option Meal :=
  s.meals.find? (fun m => decide (m.id = mealId) && m.isActive)

/-- Model of `process_buy_callback` from `src/bot.py` (lines 976-1115), up to the
database writes it performs: guard on availability, create the PENDING
order, track the creation metric, and store the payment id produced by the
gateway on the new order (`pid = none` models the branch where the legacy
gateway yields no payment id and the handler returns before the update).
Returns the created order, if any, with the updated state. -/
def processBuyCallback (s : State) (mealId : Nat) (count : Int)
    (consumerId : Nat) (newOrderId : Nat) (createdAt : DateTime)
    (pid : Option String) : Option Order × State :=
  match findActiveMeal s mealId with
  | none => (none, s)
  | some meal =>
    if meal.quantity < count then
      (none, s)
    else
      let order : Order :=
        { id := newOrderId, status := OrderStatus.pending, paymentId := none,
          quantity := count, mealId := mealId, consumerId := consumerId,
          createdAt := createdAt, completedAt := none }
      let s1 := { s with orders := s.orders ++ [order] }
      let s2 := trackMetric s1 MetricType.orderCreated newOrderId
      match pid with
      | none => (some order, s2)
      | some p =>
        let order1 := { order with paymentId := some p }
        (some order1, saveOrder s2 order1)

/-- Model of `cmd_complete_order` from `src/bot.py` (lines 1574-1658):
`vendorApproved` abstracts the vendor lookup and approval checks on the
sender; the meal-ownership and PAID-status guards follow the source. -/
def cmdCompleteOrder (s : State) (vendorId : Nat) (vendorApproved : Bool)
    (orderId : Nat) (now : DateTime) : State :=
  if !vendorApproved then s
  else
    match findOrder s orderId with
    | none => s
    | some order =>
      match findMeal s order.mealId with
      | none => s
      | some meal =>
        if meal.vendorId != vendorId then s
        else if order.status != OrderStatus.paid then s
        else
          let order1 :=
            { order with status := OrderStatus.completed, completedAt := some now }
          trackMetric (saveOrder s order1) MetricType.orderCompleted orderId

/-- Model of `cmd_cancel_order` from `src/bot.py` (lines 1665-1748): the admin check
is abstracted into `isAdmin`; the found order is set to CANCELLED with no
check of its previous status. -/
def cmdCancelOrder (s : State) (isAdmin : Bool) (orderId : Nat) : State :=
  if !isAdmin then s
  else
    match findOrder s orderId with
    | none => s
    | some order =>
      let order1 := { order with status := OrderStatus.cancelled }
      trackMetric (saveOrder s order1) MetricType.orderCancelled orderId

/-- Model of `cleanup_expired_orders` from `src/tasks.py` (lines 40-75): cancel every
PENDING order created before the cutoff instant (now minus 30 minutes). -/
def cleanupExpiredOrders (s : State) (cutoff : Int) : State :=
  { s with orders := s.orders.map (fun o =>
      if o.status == OrderStatus.pending && decide (o.createdAt.epoch < cutoff) then
        { o with status := OrderStatus.cancelled }
      else o) }

/-- Model of `process_pre_checkout_query` from `src/bot.py` (lines 2038-2116), after
the payload has been parsed to an order id: answer `ok` exactly when the
PENDING order exists, its meal is active with enough remaining quantity and
a pickup end time still in the future.  The handler performs no write, so
the state is returned unchanged on every path. -/
def processPreCheckoutQuery (s : State) (orderId : Nat) (now : Int) :
    Bool × State :=
  match s.orders.find? (fun o =>
      decide (o.id = orderId) && o.status == OrderStatus.pending) with
  | none => (false, s)
  | some order =>
    match findMeal s order.mealId with
    | none => (false, s)
    | some meal =>
      if !meal.isActive || decide (meal.quantity < order.quantity) then
        (false, s)
      else if decide (meal.pickupEndTime ≤ now) then
        (false, s)
      else
        (true, s)

/-- Model of the query taking the latest commission row:
the row with the greatest `effective_from` (the first such row on ties). -/
def latestCommission : List Commission → Option Commission
  | [] => none
  | c :: cs =>
    match latestCommission cs with
    | none => some c
    | some d => if d.effectiveFrom > c.effectiveFrom then some d else some c

/-- Model of `get_current_commission_rate` from `src/earnings.py` (lines 22-52). -/
def getCurrentCommissionRate (s : State) (now : Int) : ℚ :=
  match s.commissions.find? (fun c =>
      decide (c.effectiveFrom ≤ now) && c.effectiveTo == none) with
  | some c => c.commissionRate
  | none =>
    match latestCommission s.commissions with
    | some c => c.commissionRate
    | none => 15 / 100

/-- The earnings split computed by `calculate_and_record_earnings`
(`src/earnings.py` lines 80-83): gross, commission and net amounts. -/
def computeEarnings (price : ℚ) (quantity : Int) (rate : ℚ) : ℚ × ℚ × ℚ :=
  let gross := price * (quantity : ℚ)
  let commission := gross * rate
  let net := gross - commission
  (gross, commission, net)

/-- The `VendorEarnings.create(...)` row built by
`calculate_and_record_earnings` (`src/earnings.py` lines 80-100): the split
from `computeEarnings` and the period from `completed_at or created_at`. -/
def mkEarningsRow (order : Order) (meal : Meal) (rate : ℚ) : VendorEarnings :=
  let r := computeEarnings meal.price order.quantity rate
  let period := order.completedAt.getD order.createdAt
  { orderId := order.id, vendorId := meal.vendorId,
    grossAmount := r.1, commissionRate := rate,
    commissionAmount := r.2.1, netAmount := r.2.2,
    periodYear := period.year, periodMonth := period.month,
    isPaidOut := false }

/-- Model of `calculate_and_record_earnings` from `src/earnings.py` (lines 55-124):
requires a COMPLETED order, is idempotent on an existing row, resolves the
commission rate as of now, computes the split and appends the row. -/
def calculateAndRecordEarnings (s : State) (orderId : Nat) (now : Int) :
    Option VendorEarnings × State :=
  match findOrder s orderId with
  | none => (none, s)
  | some order =>
    if order.status != OrderStatus.completed then
      (none, s)
    else
      match s.earnings.find? (fun e => decide (e.orderId = orderId)) with
      | some existing => (some existing, s)
      | none =>
        match findMeal s order.mealId with
        | none => (none, s)
        | some meal =>
          let e := mkEarningsRow order meal (getCurrentCommissionRate s now)
          let s1 := { s with earnings := s.earnings ++ [e] }
          (some e, trackMetric s1 MetricType.earningsCalculated orderId)

/-- The `total_net` field of `get_vendor_monthly_earnings`
(`src/earnings.py` lines 127-185): the sum of `net_amount` over every
earnings row of the vendor and period, with no filter on `is_paid_out`. -/
def monthlyTotalNet (s : State) (vendorId : Nat) (year month : Int) : ℚ :=
  ((s.earnings.filter (fun e =>
      decide (e.vendorId = vendorId) && decide (e.periodYear = year) &&
      decide (e.periodMonth = month))).map VendorEarnings.netAmount).sum

/-- Modelled from the spec: the sum the specification prescribes for a
payout amount, namely `net_amount` summed over the vendor's rows of the
period that are not yet paid out. -/
def unpaidMonthlyNet (s : State) (vendorId : Nat) (year month : Int) : ℚ :=
  ((s.earnings.filter (fun e =>
      decide (e.vendorId = vendorId) && decide (e.periodYear = year) &&
      decide (e.periodMonth = month) && !e.isPaidOut)).map
    VendorEarnings.netAmount).sum

/-- Model of `create_monthly_payout_request` from `src/earnings.py` (lines 244-302):
return the existing request for the vendor and period if there is one,
otherwise create a request whose amount is the `total_net` of the monthly
earnings summary (when positive). -/
def createMonthlyPayoutRequest (s : State) (vendorId : Nat)
    (year month : Int) : Option PayoutRequest × State :=
  match s.payouts.find? (fun p =>
      decide (p.vendorId = vendorId) && decide (p.periodYear = year) &&
      decide (p.periodMonth = month)) with
  | some existing => (some existing, s)
  | none =>
    let total := monthlyTotalNet s vendorId year month
    if total ≤ 0 then
      (none, s)
    else
      let p : PayoutRequest :=
        { vendorId := vendorId, amount := total, periodYear := year,
          periodMonth := month, status := PayoutStatus.pending }
      let s1 := { s with payouts := s.payouts ++ [p] }
      (some p, trackMetric s1 MetricType.payoutRequested vendorId)

/-- The inventory decrement performed by the confirmation processor
(`src/bot.py` line 1468): `meal.quantity = max(0, meal.quantity - order.quantity)`. -/
def clampedDecrement (q n : Int) : Int := max 0 (q - n)

/-- Modelled from the spec: the decrement the specification prescribes,
`UPDATE meal SET quantity = quantity - portions WHERE id = mealId AND
quantity >= portions` — decrement only when enough portions remain. -/
def conditionalUpdateDecrement (q n : Int) : Int :=
  if n ≤ q then q - n else q

/-- One confirmation task decrementing a shared meal quantity: it reads the
quantity at one suspension point and later writes the clamped decrement.
`n` is the order's portion count, `v` the value it read. -/
inductive DecProc where
  | ready (n : Int)
  | willWrite (n : Int) (v : Int)
  | done (n : Int)

/-- A shared meal quantity together with the concurrent confirmation
tasks addressing it. -/
structure CState where
  quantity : Int
  procs : List DecProc

/-- Interleaved execution: any task may take its next step between the
suspension points of the others. -/
inductive DecStep : CState → CState → Prop where
  | read (q : Int) (pre : List DecProc) (n : Int) (post : List DecProc) :
      DecStep ⟨q, pre ++ DecProc.ready n :: post⟩
        ⟨q, pre ++ DecProc.willWrite n q :: post⟩
  | write (q : Int) (pre : List DecProc) (n v : Int) (post : List DecProc) :
      DecStep ⟨q, pre ++ DecProc.willWrite n v :: post⟩
        ⟨clampedDecrement v n, pre ++ DecProc.done n :: post⟩

/-- The operations of the order lifecycle, as labels for a step of the
system (order creation, payment confirmation, completion, cancellation,
periodic cleanup). -/
inductive Op where
  | buy (mealId : Nat) (count : Int) (consumerId newOrderId : Nat)
      (createdAt : DateTime) (pid : Option String)
  | webhook (data : WebhookData) (signature : Option String)
  | complete (vendorId : Nat) (vendorApproved : Bool) (orderId : Nat)
      (now : DateTime)
  | cancel (isAdmin : Bool) (orderId : Nat)
  | cleanup (cutoff : Int)

/-- Apply one lifecycle operation to the state. -/
def applyOp (s : State) : Op → State
  | Op.buy mealId count consumerId newOrderId createdAt pid =>
    (processBuyCallback s mealId count consumerId newOrderId createdAt pid).2
  | Op.webhook data signature => (processPaymentWebhook s data signature).2
  | Op.complete vendorId vendorApproved orderId now =>
    cmdCompleteOrder s vendorId vendorApproved orderId now
  | Op.cancel isAdmin orderId => cmdCancelOrder s isAdmin orderId
  | Op.cleanup cutoff => cleanupExpiredOrders s cutoff

/-- The status edges the specification allows: stay put, PENDING→PAID,
PAID→COMPLETED, or PENDING→CANCELLED. -/
def claimEdge (a b : OrderStatus) : Prop :=
  a = b ∨ (a = OrderStatus.pending ∧ b = OrderStatus.paid) ∨
    (a = OrderStatus.paid ∧ b = OrderStatus.completed) ∨
    (a = OrderStatus.pending ∧ b = OrderStatus.cancelled)

instance (a b : OrderStatus) : Decidable (claimEdge a b) := by
  unfold claimEdge; infer_instance

/-- The status edges the code actually takes: stay put, PENDING→PAID,
PAID→COMPLETED, or a cancellation from any status. -/
def codeEdge (a b : OrderStatus) : Prop :=
  a = b ∨ (a = OrderStatus.pending ∧ b = OrderStatus.paid) ∨
    (a = OrderStatus.paid ∧ b = OrderStatus.completed) ∨
    b = OrderStatus.cancelled

instance (a b : OrderStatus) : Decidable (codeEdge a b) := by
  unfold codeEdge; infer_instance

/-- Primary keys are unique: no two order rows share an id. -/
def uniqueOrderIds (s : State) : Prop := (s.orders.map Order.id).Nodup

instance (s : State) : Decidable (uniqueOrderIds s) := by
  unfold uniqueOrderIds; infer_instance

/-- Primary keys are unique: no two meal rows share an id. -/
def uniqueMealIds (s : State) : Prop := (s.meals.map Meal.id).Nodup

instance (s : State) : Decidable (uniqueMealIds s) := by
  unfold uniqueMealIds; infer_instance

/-- The webhook guard: truthy payment id and status `"completed"`. -/
def validWebhook (data : WebhookData) : Bool :=
  !(pyFalsy data.paymentId || !(data.status == some "completed"))

/-- Well-formedness of an operation against the state: a created order's
primary key is fresh — the database assigns a new autoincrement id. -/
def opWf (s : State) : Op → Prop
  | Op.buy _ _ _ newOrderId _ _ => ∀ o ∈ s.orders, o.id ≠ newOrderId
  | _ => True

/-! ### Helper lemmas -/

/-- Searching by key commutes with mapping a key-preserving function. -/
theorem find?_key_map {α : Type} (key : α → Nat) (f : α → α)
    (hid : ∀ x, key (f x) = key x) (l : List α) (k : Nat) :
    (l.map f).find? (fun x => decide (key x = k)) =
      (l.find? (fun x => decide (key x = k))).map f := by
  rw [List.find?_map]
  have hpf : ((fun x => decide (key x = k)) ∘ f) = (fun x => decide (key x = k)) := by
    funext x
    simp [Function.comp, hid]
  rw [hpf]

/-- After replacing the row whose primary key matches `order1` in a list in
which `order` was the first row satisfying `p`, the first row satisfying
`p` is `order1`, provided `order1` has the key of `order` and satisfies
`p`. -/
theorem find?_replace_found (l : List Order) (p : Order → Bool)
    (order order1 : Order) (hfind : l.find? p = some order)
    (hid : order1.id = order.id) (hp : p order1 = true) :
    (l.map (fun x => if x.id = order1.id then order1 else x)).find? p =
      some order1 := by
  induction l with
  | nil => simp at hfind
  | cons a l ih =>
    rw [List.find?_cons] at hfind
    by_cases ha : p a = true
    · simp only [ha] at hfind
      injection hfind with h
      subst h
      have hfa : (if a.id = order1.id then order1 else a) = order1 := if_pos hid.symm
      simp only [List.map_cons, List.find?_cons, hfa, hp]
    · rw [Bool.not_eq_true] at ha
      simp only [ha] at hfind
      by_cases hk : a.id = order1.id
      · have hfa : (if a.id = order1.id then order1 else a) = order1 := if_pos hk
        simp only [List.map_cons, List.find?_cons, hfa, hp]
      · have hfa : (if a.id = order1.id then order1 else a) = a := if_neg hk
        simp only [List.map_cons, List.find?_cons, hfa, ha]
        exact ih hfind

/-- Looking up after a `saveOrder` is the lookup before, with the saved
row substituted when the key matches. -/
theorem findOrder_saveOrder (s : State) (o0 : Order) (oid : Nat) :
    findOrder (saveOrder s o0) oid =
      (findOrder s oid).map (fun x => if x.id = o0.id then o0 else x) := by
  unfold findOrder saveOrder
  rw [List.find?_map]
  have hpf : ((fun o => decide (o.id = oid)) ∘ fun x => if x.id = o0.id then o0 else x) =
      (fun o => decide (o.id = oid)) := by
    funext x
    by_cases h : x.id = o0.id <;> simp [Function.comp, h]
  rw [hpf]

/-- In a list of orders with pairwise distinct ids, any member whose id is
found by `findOrder` is the found row. -/
theorem findOrder_eq_of_mem (s : State) (h : uniqueOrderIds s)
    (o x : Order) (hx : x ∈ s.orders) (hfind : findOrder s x.id = some o) :
    o = x := by
  have hmem : o ∈ s.orders := List.mem_of_find?_eq_some hfind
  have hpo := List.find?_some hfind
  simp only [decide_eq_true_eq] at hpo
  exact List.inj_on_of_nodup_map h hmem hx hpo

/-- Strengthening the predicate of a successful search: the found element
also satisfies the conjunction when it satisfies the extra conjunct. -/
theorem find?_and_of_find? {α : Type} (l : List α) (p q : α → Bool) (o : α)
    (h : l.find? p = some o) (hq : q o = true) :
    l.find? (fun x => p x && q x) = some o := by
  induction l with
  | nil => simp at h
  | cons a l ih =>
    rw [List.find?_cons] at h
    by_cases ha : p a = true
    · simp only [ha] at h
      injection h with h
      subst h
      simp [List.find?_cons, ha, hq]
    · rw [Bool.not_eq_true] at ha
      simp only [ha] at h
      simp only [List.find?_cons, ha, Bool.false_and]
      exact ih h

/-- Mapping a function that fixes every member leaves the list unchanged. -/
theorem map_eq_self_of_forall {α : Type} (l : List α) (f : α → α)
    (h : ∀ x ∈ l, f x = x) : l.map f = l := by
  induction l with
  | nil => rfl
  | cons a l ih =>
    simp only [List.map_cons, h a (List.mem_cons_self a l)]
    rw [ih (fun x hx => h x (List.mem_cons_of_mem a hx))]

/-- A member satisfying the predicate makes the search succeed. -/
theorem find?_isSome_of_mem {α : Type} (l : List α) (p : α → Bool) (x : α)
    (hx : x ∈ l) (hp : p x = true) : (l.find? p).isSome = true :=
  List.find?_isSome.mpr ⟨x, hx, hp⟩

/-- An invalid payload is rejected with no state change. -/
theorem processPaymentWebhook_invalid (s : State) (data : WebhookData)
    (sig : Option String) (h : validWebhook data = false) :
    processPaymentWebhook s data sig = (false, s) := by
  unfold validWebhook at h
  rw [Bool.not_eq_false'] at h
  unfold processPaymentWebhook
  rw [h]
  simp

/-- A payload whose payment id matches no order is rejected with no state
change. -/
theorem processPaymentWebhook_notFound (s : State) (data : WebhookData)
    (sig : Option String) (h : validWebhook data = true)
    (hfind : s.orders.find? (fun o => o.paymentId == data.paymentId) = none) :
    processPaymentWebhook s data sig = (false, s) := by
  unfold validWebhook at h
  rw [Bool.not_eq_true'] at h
  unfold processPaymentWebhook
  rw [h, hfind]
  simp

/-- A confirmation for an order that is no longer PENDING returns success
and performs no state change. -/
theorem processPaymentWebhook_nonPending (s : State) (data : WebhookData)
    (sig : Option String) (order : Order) (h : validWebhook data = true)
    (hfind : s.orders.find? (fun o => o.paymentId == data.paymentId) = some order)
    (hnp : order.status ≠ OrderStatus.pending) :
    processPaymentWebhook s data sig = (true, s) := by
  unfold validWebhook at h
  rw [Bool.not_eq_true'] at h
  unfold processPaymentWebhook
  rw [h, hfind]
  have hb : (order.status != OrderStatus.pending) = true := by
    simpa using hnp
  simp [hb]

/-- Processing a PENDING order marks it PAID; whatever else happens, the
orders table afterwards is the one obtained by saving the PAID order. -/
theorem processPaymentWebhook_orders_after (s : State) (data : WebhookData)
    (sig : Option String) (order : Order) (h : validWebhook data = true)
    (hfind : s.orders.find? (fun o => o.paymentId == data.paymentId) = some order)
    (hp : order.status = OrderStatus.pending) :
    (processPaymentWebhook s data sig).2.orders =
      (saveOrder s { order with status := OrderStatus.paid }).orders := by
  unfold validWebhook at h
  rw [Bool.not_eq_true'] at h
  unfold processPaymentWebhook
  rw [h, hfind]
  have hb : (order.status != OrderStatus.pending) = false := by
    simp [hp]
  simp only [hb, Bool.false_eq_true, if_false]
  cases hm : findMeal (saveOrder s { order with status := OrderStatus.paid }) order.mealId with
  | none => simp [hm]
  | some meal => simp [hm, trackMetric, saveMeal]

/-- Earnings are not recorded for an unknown order. -/
theorem calcEarnings_notFound (s : State) (oid : Nat) (now : Int)
    (h : findOrder s oid = none) :
    calculateAndRecordEarnings s oid now = (none, s) := by
  unfold calculateAndRecordEarnings
  simp only [h]

/-- Earnings are not recorded for an order that is not COMPLETED. -/
theorem calcEarnings_notCompleted (s : State) (oid : Nat) (now : Int)
    (order : Order) (h : findOrder s oid = some order)
    (hst : order.status ≠ OrderStatus.completed) :
    calculateAndRecordEarnings s oid now = (none, s) := by
  unfold calculateAndRecordEarnings
  simp only [h]
  have hb : (order.status != OrderStatus.completed) = true := by simpa using hst
  simp [hb]

/-- An existing earnings row is returned unchanged. -/
theorem calcEarnings_existing (s : State) (oid : Nat) (now : Int)
    (order : Order) (e : VendorEarnings) (h : findOrder s oid = some order)
    (hst : order.status = OrderStatus.completed)
    (he : s.earnings.find? (fun x => decide (x.orderId = oid)) = some e) :
    calculateAndRecordEarnings s oid now = (some e, s) := by
  unfold calculateAndRecordEarnings
  simp only [h]
  have hb : (order.status != OrderStatus.completed) = false := by simp [hst]
  simp only [hb, Bool.false_eq_true, if_false, he]

/-- Earnings recording fails with no change when the meal row is missing. -/
theorem calcEarnings_noMeal (s : State) (oid : Nat) (now : Int)
    (order : Order) (h : findOrder s oid = some order)
    (hst : order.status = OrderStatus.completed)
    (he : s.earnings.find? (fun x => decide (x.orderId = oid)) = none)
    (hm : findMeal s order.mealId = none) :
    calculateAndRecordEarnings s oid now = (none, s) := by
  unfold calculateAndRecordEarnings
  simp only [h]
  have hb : (order.status != OrderStatus.completed) = false := by simp [hst]
  simp only [hb, Bool.false_eq_true, if_false, he, hm]

/-- The creation path of `calculate_and_record_earnings`: a fresh row is
appended and the earnings-calculated metric is tracked. -/
theorem calcEarnings_creates (s : State) (oid : Nat) (now : Int)
    (order : Order) (meal : Meal) (h : findOrder s oid = some order)
    (hst : order.status = OrderStatus.completed)
    (he : s.earnings.find? (fun x => decide (x.orderId = oid)) = none)
    (hm : findMeal s order.mealId = some meal) :
    calculateAndRecordEarnings s oid now =
      (some (mkEarningsRow order meal (getCurrentCommissionRate s now)),
       trackMetric
         { s with earnings := s.earnings ++
            [mkEarningsRow order meal (getCurrentCommissionRate s now)] }
         MetricType.earningsCalculated oid) := by
  unfold calculateAndRecordEarnings
  simp only [h]
  have hb : (order.status != OrderStatus.completed) = false := by simp [hst]
  simp only [hb, Bool.false_eq_true, if_false, he, hm]

/-- Two states with the same orders table agree on every order lookup. -/
theorem findOrder_eq_orders {X Y : State} (h : X.orders = Y.orders)
    (oid : Nat) : findOrder X oid = findOrder Y oid := by
  unfold findOrder
  rw [h]

/-- Saving a row over a missing key cannot make the lookup succeed. -/
theorem findOrder_saveOrder_none (s : State) (o0 : Order) (oid : Nat)
    (hb : findOrder s oid = none) :
    findOrder (saveOrder s o0) oid = none := by
  rw [findOrder_saveOrder, hb]
  rfl

/-- After a save, a found row is the old row or the saved row (the latter
exactly when the keys collide). -/
theorem edge_after_save (s : State) (o0 o o1 : Order) (oid : Nat)
    (hb : findOrder s oid = some o)
    (ha : findOrder (saveOrder s o0) oid = some o1) :
    o1 = o ∨ (o1 = o0 ∧ o.id = o0.id) := by
  rw [findOrder_saveOrder, hb] at ha
  simp only [Option.map_some'] at ha
  injection ha with ha
  by_cases h : o.id = o0.id
  · right
    rw [if_pos h] at ha
    exact ⟨ha.symm, h⟩
  · left
    rw [if_neg h] at ha
    exact ha.symm

/-- The orders table after a purchase attempt: unchanged, or with one new
PENDING order of the fresh id appended. -/
theorem buy_orders_after (s : State) (mealId : Nat) (count : Int)
    (consumerId newOrderId : Nat) (createdAt : DateTime) (pid : Option String)
    (hfresh : ∀ o ∈ s.orders, o.id ≠ newOrderId) :
    (processBuyCallback s mealId count consumerId newOrderId createdAt
      pid).2.orders = s.orders ∨
    ∃ onew, onew.status = OrderStatus.pending ∧ onew.id = newOrderId ∧
      (processBuyCallback s mealId count consumerId newOrderId createdAt
        pid).2.orders = s.orders ++ [onew] := by
  cases hfm : findActiveMeal s mealId with
  | none =>
    left
    unfold processBuyCallback
    simp only [hfm]
  | some meal =>
    by_cases hq : meal.quantity < count
    · left
      unfold processBuyCallback
      simp only [hfm]
      simp [hq]
    · cases hpid : pid with
      | none =>
        right
        refine ⟨⟨newOrderId, OrderStatus.pending, none, count, mealId,
          consumerId, createdAt, none⟩, rfl, rfl, ?_⟩
        unfold processBuyCallback
        simp only [hfm]
        simp [hq]
        rfl
      | some p =>
        right
        refine ⟨⟨newOrderId, OrderStatus.pending, some p, count, mealId,
          consumerId, createdAt, none⟩, rfl, rfl, ?_⟩
        unfold processBuyCallback
        simp only [hfm]
        simp only [if_neg hq]
        show ((s.orders ++
          [(⟨newOrderId, OrderStatus.pending, none, count, mealId,
            consumerId, createdAt, none⟩ : Order)]).map (fun x =>
              if x.id = newOrderId then
                (⟨newOrderId, OrderStatus.pending, some p, count, mealId,
                  consumerId, createdAt, none⟩ : Order)
              else x)) = _
        rw [List.map_append]
        rw [map_eq_self_of_forall s.orders _
          (fun x hx => if_neg (hfresh x hx))]
        simp

/-- The state after a completion attempt: unchanged, or with the found
PAID order saved as COMPLETED. -/
theorem complete_after (s : State) (vendorId : Nat) (approved : Bool)
    (orderId : Nat) (now : DateTime) :
    cmdCompleteOrder s vendorId approved orderId now = s ∨
    ∃ order, findOrder s orderId = some order ∧
      order.status = OrderStatus.paid ∧
      (cmdCompleteOrder s vendorId approved orderId now).orders =
        (saveOrder s
          { order with status := OrderStatus.completed, completedAt := some now }).orders := by
  by_cases hap : approved = true
  · cases hfo : findOrder s orderId with
    | none =>
      left
      unfold cmdCompleteOrder
      rw [hap]
      simp only [Bool.not_true, Bool.false_eq_true, if_false, hfo]
    | some order =>
      cases hm : findMeal s order.mealId with
      | none =>
        left
        unfold cmdCompleteOrder
        rw [hap]
        simp only [Bool.not_true, Bool.false_eq_true, if_false, hfo, hm]
      | some meal =>
        by_cases hv : (meal.vendorId != vendorId) = true
        · left
          unfold cmdCompleteOrder
          rw [hap]
          simp only [Bool.not_true, Bool.false_eq_true, if_false, hfo, hm]
          simp [hv]
        · rw [Bool.not_eq_true] at hv
          by_cases hst : (order.status != OrderStatus.paid) = true
          · left
            unfold cmdCompleteOrder
            rw [hap]
            simp only [Bool.not_true, Bool.false_eq_true, if_false, hfo, hm]
            simp [hv, hst]
          · rw [Bool.not_eq_true] at hst
            right
            refine ⟨order, rfl, ?_, ?_⟩
            · rwa [bne_eq_false_iff_eq] at hst
            · unfold cmdCompleteOrder
              rw [hap]
              simp only [Bool.not_true, Bool.false_eq_true, if_false, hfo, hm,
                hv, hst]
              rfl
  · left
    rw [Bool.not_eq_true] at hap
    unfold cmdCompleteOrder
    rw [hap]
    rfl

/-- The state after a cancellation attempt: unchanged, or with the found
order saved as CANCELLED regardless of its previous status. -/
theorem cancel_after (s : State) (isAdmin : Bool) (orderId : Nat) :
    cmdCancelOrder s isAdmin orderId = s ∨
    ∃ order, findOrder s orderId = some order ∧
      (cmdCancelOrder s isAdmin orderId).orders =
        (saveOrder s { order with status := OrderStatus.cancelled }).orders := by
  unfold cmdCancelOrder
  by_cases hadm : isAdmin = true
  · rw [hadm]
    simp only [Bool.not_true, Bool.false_eq_true, if_false]
    cases hfo : findOrder s orderId with
    | none => exact Or.inl rfl
    | some order => exact Or.inr ⟨order, rfl, rfl⟩
  · rw [Bool.not_eq_true] at hadm
    rw [hadm]
    exact Or.inl rfl

/-- Order lookup commutes with the cleanup pass, which rewrites rows in
place without changing ids. -/
theorem cleanup_findOrder (s : State) (cutoff : Int) (oid : Nat) :
    findOrder (cleanupExpiredOrders s cutoff) oid =
      (findOrder s oid).map (fun o =>
        if o.status == OrderStatus.pending && decide (o.createdAt.epoch < cutoff)
        then { o with status := OrderStatus.cancelled } else o) := by
  unfold findOrder cleanupExpiredOrders
  exact find?_key_map Order.id
    (fun o =>
      if o.status == OrderStatus.pending && decide (o.createdAt.epoch < cutoff)
      then { o with status := OrderStatus.cancelled } else o)
    (fun o => by
      by_cases h : (o.status == OrderStatus.pending &&
          decide (o.createdAt.epoch < cutoff)) = true
      · simp [h]
      · simp [h])
    s.orders oid

/-! ### Claim theorems -/

/-- C10: for every state, webhook payload and pair of signature values, the
webhook processor used by the HTTP endpoint produces the same result and
the same state changes — the signature argument never gates processing. -/
theorem C10_signature_never_gates (s : State) (data : WebhookData)
    (sig1 sig2 : Option String) :
    processPaymentWebhook s data sig1 = processPaymentWebhook s data sig2 ∧
    handlePaymentWebhook s data sig1 = handlePaymentWebhook s data sig2 :=
  ⟨rfl, rfl⟩

/-- C1: a valid payment confirmation for an order that is not PENDING
returns success and changes nothing, and applying the same confirmation
payload twice leaves exactly the state after one application — inventory
is decremented once and the final order status agrees. -/
theorem C1_duplicate_confirmation_is_noop :
    (∀ (s : State) (data : WebhookData) (sig : Option String) (order : Order),
      validWebhook data = true →
      s.orders.find? (fun o => o.paymentId == data.paymentId) = some order →
      order.status ≠ OrderStatus.pending →
      processPaymentWebhook s data sig = (true, s)) ∧
    (∀ (s : State) (data : WebhookData) (sig : Option String),
      (processPaymentWebhook (processPaymentWebhook s data sig).2 data sig).2 =
        (processPaymentWebhook s data sig).2) := by
  constructor
  · intro s data sig order h hfind hnp
    exact processPaymentWebhook_nonPending s data sig order h hfind hnp
  · intro s data sig
    by_cases h : validWebhook data = true
    · cases hfind : s.orders.find? (fun o => o.paymentId == data.paymentId) with
      | none =>
        have h1 := processPaymentWebhook_notFound s data sig h hfind
        rw [h1]
        show (processPaymentWebhook s data sig).2 = s
        rw [h1]
      | some order =>
        by_cases hp : order.status = OrderStatus.pending
        · have horders := processPaymentWebhook_orders_after s data sig order h hfind hp
          have hpo := List.find?_some hfind
          have hfind2 : (processPaymentWebhook s data sig).2.orders.find?
              (fun o => o.paymentId == data.paymentId) =
                some { order with status := OrderStatus.paid } := by
            rw [horders]
            exact find?_replace_found s.orders _ order _ hfind rfl hpo
          have h2 := processPaymentWebhook_nonPending
            (processPaymentWebhook s data sig).2 data sig _ h hfind2 (by simp)
          rw [h2]
        · have h1 := processPaymentWebhook_nonPending s data sig order h hfind hp
          rw [h1]
          show (processPaymentWebhook s data sig).2 = s
          rw [h1]
    · have hf : validWebhook data = false := by simpa using h
      have h1 := processPaymentWebhook_invalid s data sig hf
      rw [h1]
      show (processPaymentWebhook s data sig).2 = s
      rw [h1]

/-- C1 witness: the theorem applied at a concrete state — a PAID order
whose confirmation payload is replayed. -/
theorem C1_duplicate_confirmation_is_noop_witness :
    processPaymentWebhook
        ⟨[⟨1, OrderStatus.paid, some "p1", 2, 10, 3, ⟨0, 2025, 1⟩, none⟩],
         [⟨10, 7, 1500, 5, 100, true⟩], [], [], [], []⟩
        ⟨some "p1", some "completed", some 1⟩ none =
      (true,
        ⟨[⟨1, OrderStatus.paid, some "p1", 2, 10, 3, ⟨0, 2025, 1⟩, none⟩],
         [⟨10, 7, 1500, 5, 100, true⟩], [], [], [], []⟩) :=
  C1_duplicate_confirmation_is_noop.1 _ _ none
    ⟨1, OrderStatus.paid, some "p1", 2, 10, 3, ⟨0, 2025, 1⟩, none⟩
    (by decide) (by rfl) (by decide)

/-- C8: the pre-checkout handler mutates nothing, and it answers ok exactly
when the referenced order exists with status PENDING, its meal is active
with remaining quantity at least the order quantity, and the pickup end
time has not passed. -/
theorem C8_pre_checkout_pure_and_exact (s : State) (oid : Nat) (now : Int)
    (hids : uniqueOrderIds s) :
    (processPreCheckoutQuery s oid now).2 = s ∧
    ((processPreCheckoutQuery s oid now).1 = true ↔
      ∃ o m, findOrder s oid = some o ∧ o.status = OrderStatus.pending ∧
        findMeal s o.mealId = some m ∧ m.isActive = true ∧
        o.quantity ≤ m.quantity ∧ now < m.pickupEndTime) := by
  cases hfind : s.orders.find? (fun o =>
      decide (o.id = oid) && o.status == OrderStatus.pending) with
  | none =>
    have hval : processPreCheckoutQuery s oid now = (false, s) := by
      unfold processPreCheckoutQuery
      rw [hfind]
    rw [hval]
    refine ⟨rfl, ?_, ?_⟩
    · intro h
      simp at h
    · rintro ⟨o, m, ho, hpend, -, -, -, -⟩
      have hq : (o.status == OrderStatus.pending) = true := by simp [hpend]
      have hconj := find?_and_of_find? s.orders
        (fun x => decide (x.id = oid)) (fun x => x.status == OrderStatus.pending)
        o ho hq
      rw [hfind] at hconj
      simp at hconj
  | some order =>
    have horder := List.find?_some hfind
    rw [Bool.and_eq_true] at horder
    obtain ⟨hoid, hpend⟩ := horder
    rw [decide_eq_true_eq] at hoid
    rw [beq_iff_eq] at hpend
    have hordmem : order ∈ s.orders := List.mem_of_find?_eq_some hfind
    have hfo : findOrder s oid = some order := by
      have hsome : (findOrder s oid).isSome = true := by
        apply find?_isSome_of_mem s.orders _ order hordmem
        simp [hoid]
      cases hfo2 : findOrder s oid with
      | none => rw [hfo2] at hsome; simp at hsome
      | some o2 =>
        have ho2 : o2 = order := by
          apply findOrder_eq_of_mem s hids o2 order hordmem
          rw [← hoid] at hfo2
          exact hfo2
        rw [ho2]
    cases hm : findMeal s order.mealId with
    | none =>
      have hval : processPreCheckoutQuery s oid now = (false, s) := by
        unfold processPreCheckoutQuery
        simp only [hfind, hm]
      rw [hval]
      refine ⟨rfl, ?_, ?_⟩
      · intro h
        simp at h
      · rintro ⟨o, m, ho, -, hom, -, -, -⟩
        rw [hfo] at ho
        injection ho with ho
        subst ho
        rw [hm] at hom
        simp at hom
    | some meal =>
      by_cases h1 : (!meal.isActive || decide (meal.quantity < order.quantity)) = true
      · have hval : processPreCheckoutQuery s oid now = (false, s) := by
          unfold processPreCheckoutQuery
          simp only [hfind, hm]
          simp [h1]
        rw [hval]
        refine ⟨rfl, ?_, ?_⟩
        · intro h
          simp at h
        · rintro ⟨o, m, ho, -, hom, hact, hq, -⟩
          rw [hfo] at ho
          injection ho with ho
          subst ho
          rw [hm] at hom
          injection hom with hom
          subst hom
          rw [Bool.or_eq_true] at h1
          rcases h1 with h1 | h1
          · rw [Bool.not_eq_true'] at h1
            rw [h1] at hact
            exact absurd hact (by simp)
          · rw [decide_eq_true_eq] at h1
            omega
      · rw [Bool.not_eq_true] at h1
        by_cases h2 : (decide (meal.pickupEndTime ≤ now)) = true
        · have hval : processPreCheckoutQuery s oid now = (false, s) := by
            unfold processPreCheckoutQuery
            simp only [hfind, hm]
            simp [h1, h2]
          rw [hval]
          refine ⟨rfl, ?_, ?_⟩
          · intro h
            simp at h
          · rintro ⟨o, m, ho, -, hom, -, -, ht⟩
            rw [hfo] at ho
            injection ho with ho
            subst ho
            rw [hm] at hom
            injection hom with hom
            subst hom
            rw [decide_eq_true_eq] at h2
            omega
        · rw [Bool.not_eq_true] at h2
          have hval : processPreCheckoutQuery s oid now = (true, s) := by
            unfold processPreCheckoutQuery
            simp only [hfind, hm]
            simp [h1, h2]
          rw [hval]
          refine ⟨rfl, ?_, ?_⟩
          · intro _
            rw [Bool.or_eq_false_iff] at h1
            obtain ⟨hact, hlt⟩ := h1
            rw [Bool.not_eq_false'] at hact
            rw [decide_eq_false_iff_not] at hlt
            rw [decide_eq_false_iff_not] at h2
            exact ⟨order, meal, hfo, hpend, hm, hact, by omega, by omega⟩
          · intro _
            rfl

/-- C7: order creation is gated on availability — when the active meal is
missing (inactive or absent) or the requested portions exceed the
remaining quantity, the purchase handler fails with no state change; an
order row is appended only when the meal is active with enough quantity,
and then it is PENDING with the requested quantity. -/
theorem C7_buy_guarded_creation (s : State) (mealId : Nat) (count : Int)
    (consumerId newOrderId : Nat) (createdAt : DateTime) (pid : Option String)
    (hfresh : ∀ o ∈ s.orders, o.id ≠ newOrderId) :
    (findActiveMeal s mealId = none →
      processBuyCallback s mealId count consumerId newOrderId createdAt pid =
        (none, s)) ∧
    (∀ meal, findActiveMeal s mealId = some meal → meal.quantity < count →
      processBuyCallback s mealId count consumerId newOrderId createdAt pid =
        (none, s)) ∧
    (∀ o, (processBuyCallback s mealId count consumerId newOrderId createdAt
        pid).1 = some o →
      ∃ meal, findActiveMeal s mealId = some meal ∧ meal.isActive = true ∧
        count ≤ meal.quantity ∧ o.status = OrderStatus.pending ∧
        o.quantity = count ∧ o.id = newOrderId ∧
        ∃ o1, (processBuyCallback s mealId count consumerId newOrderId
            createdAt pid).2.orders = s.orders ++ [o1] ∧
          o1.status = OrderStatus.pending ∧ o1.quantity = count) := by
  refine ⟨?_, ?_, ?_⟩
  · intro h
    unfold processBuyCallback
    simp only [h]
  · intro meal hfm hq
    unfold processBuyCallback
    simp only [hfm]
    simp [hq]
  · intro o ho
    cases hfm : findActiveMeal s mealId with
    | none =>
      unfold processBuyCallback at ho
      simp only [hfm] at ho
      simp at ho
    | some meal =>
      have hact : meal.isActive = true := by
        have := List.find?_some hfm
        rw [Bool.and_eq_true] at this
        exact this.2
      by_cases hq : meal.quantity < count
      · unfold processBuyCallback at ho
        simp only [hfm] at ho
        simp [hq] at ho
      · have hle : count ≤ meal.quantity := by omega
        cases hpid : pid with
        | none =>
          subst hpid
          have hval : processBuyCallback s mealId count consumerId newOrderId
              createdAt none =
              (some ⟨newOrderId, OrderStatus.pending, none, count, mealId,
                consumerId, createdAt, none⟩,
               trackMetric { s with orders := s.orders ++
                  [⟨newOrderId, OrderStatus.pending, none, count, mealId,
                    consumerId, createdAt, none⟩] }
                 MetricType.orderCreated newOrderId) := by
            unfold processBuyCallback
            simp only [hfm]
            simp [hq]
          rw [hval] at ho
          injection ho with ho
          subst ho
          refine ⟨meal, rfl, hact, hle, rfl, rfl, rfl,
            ⟨newOrderId, OrderStatus.pending, none, count, mealId,
              consumerId, createdAt, none⟩, ?_, rfl, rfl⟩
          rw [hval]
          rfl
        | some p =>
          subst hpid
          have hval : processBuyCallback s mealId count consumerId newOrderId
              createdAt (some p) =
              (some ⟨newOrderId, OrderStatus.pending, some p, count, mealId,
                consumerId, createdAt, none⟩,
               saveOrder
                 (trackMetric { s with orders := s.orders ++
                    [⟨newOrderId, OrderStatus.pending, none, count, mealId,
                      consumerId, createdAt, none⟩] }
                   MetricType.orderCreated newOrderId)
                 ⟨newOrderId, OrderStatus.pending, some p, count, mealId,
                  consumerId, createdAt, none⟩) := by
            unfold processBuyCallback
            simp only [hfm]
            simp [hq]
          rw [hval] at ho
          injection ho with ho
          subst ho
          refine ⟨meal, rfl, hact, hle, rfl, rfl, rfl,
            ⟨newOrderId, OrderStatus.pending, some p, count, mealId,
              consumerId, createdAt, none⟩, ?_, rfl, rfl⟩
          rw [hval]
          have hmap : ((s.orders ++
              [(⟨newOrderId, OrderStatus.pending, none, count, mealId,
                consumerId, createdAt, none⟩ : Order)]).map
              (fun x => if x.id = newOrderId then
                  (⟨newOrderId, OrderStatus.pending, some p, count, mealId,
                    consumerId, createdAt, none⟩ : Order)
                else x)) = s.orders ++
              [⟨newOrderId, OrderStatus.pending, some p, count, mealId,
                consumerId, createdAt, none⟩] := by
            rw [List.map_append]
            rw [map_eq_self_of_forall s.orders _
              (fun x hx => if_neg (hfresh x hx))]
            simp
          exact hmap

/-- C7 witness: the theorem applied at a concrete state in which the order
is created. -/
theorem C7_buy_guarded_creation_witness :
    ∃ o, (processBuyCallback
        ⟨[], [⟨10, 7, 1500, 5, 100, true⟩], [], [], [], []⟩
        10 2 3 1 ⟨0, 2025, 1⟩ (some "p1")).1 = some o ∧
      ∃ meal, findActiveMeal
          ⟨[], [⟨10, 7, 1500, 5, 100, true⟩], [], [], [], []⟩ 10 = some meal ∧
        meal.isActive = true ∧ (2 : Int) ≤ meal.quantity ∧
        o.status = OrderStatus.pending ∧ o.quantity = 2 ∧ o.id = 1 ∧
        ∃ o1, (processBuyCallback
            ⟨[], [⟨10, 7, 1500, 5, 100, true⟩], [], [], [], []⟩
            10 2 3 1 ⟨0, 2025, 1⟩ (some "p1")).2.orders = [] ++ [o1] ∧
          o1.status = OrderStatus.pending ∧ o1.quantity = 2 :=
  ⟨⟨1, OrderStatus.pending, some "p1", 2, 10, 3, ⟨0, 2025, 1⟩, none⟩, rfl,
    (C7_buy_guarded_creation
        ⟨[], [⟨10, 7, 1500, 5, 100, true⟩], [], [], [], []⟩
        10 2 3 1 ⟨0, 2025, 1⟩ (some "p1") (by decide)).2.2
      ⟨1, OrderStatus.pending, some "p1", 2, 10, 3, ⟨0, 2025, 1⟩, none⟩ rfl⟩

/-- C8 witness: the theorem applied at a concrete state in which the
checkout is approved. -/
theorem C8_pre_checkout_pure_and_exact_witness :
    (processPreCheckoutQuery
        ⟨[⟨1, OrderStatus.pending, some "p1", 2, 10, 3, ⟨0, 2025, 1⟩, none⟩],
         [⟨10, 7, 1500, 5, 100, true⟩], [], [], [], []⟩ 1 50).2 =
      ⟨[⟨1, OrderStatus.pending, some "p1", 2, 10, 3, ⟨0, 2025, 1⟩, none⟩],
       [⟨10, 7, 1500, 5, 100, true⟩], [], [], [], []⟩ ∧
    ((processPreCheckoutQuery
        ⟨[⟨1, OrderStatus.pending, some "p1", 2, 10, 3, ⟨0, 2025, 1⟩, none⟩],
         [⟨10, 7, 1500, 5, 100, true⟩], [], [], [], []⟩ 1 50).1 = true ↔
      ∃ o m, findOrder
          ⟨[⟨1, OrderStatus.pending, some "p1", 2, 10, 3, ⟨0, 2025, 1⟩, none⟩],
           [⟨10, 7, 1500, 5, 100, true⟩], [], [], [], []⟩ 1 = some o ∧
        o.status = OrderStatus.pending ∧
        findMeal
          ⟨[⟨1, OrderStatus.pending, some "p1", 2, 10, 3, ⟨0, 2025, 1⟩, none⟩],
           [⟨10, 7, 1500, 5, 100, true⟩], [], [], [], []⟩ o.mealId = some m ∧
        m.isActive = true ∧ o.quantity ≤ m.quantity ∧ (50 : Int) < m.pickupEndTime) :=
  C8_pre_checkout_pure_and_exact _ 1 50 (by decide)

/-- C6: recording earnings fails with no state change unless the order is
COMPLETED; an already-existing row for the order is returned unchanged and
no second row is created; consequently at most one earnings row per order
ever exists. -/
theorem C6_record_earnings_requires_completed_and_idempotent :
    (∀ (s : State) (oid : Nat) (now : Int) (order : Order),
      findOrder s oid = some order → order.status ≠ OrderStatus.completed →
      calculateAndRecordEarnings s oid now = (none, s)) ∧
    (∀ (s : State) (oid : Nat) (now : Int) (order : Order) (e : VendorEarnings),
      findOrder s oid = some order → order.status = OrderStatus.completed →
      s.earnings.find? (fun x => decide (x.orderId = oid)) = some e →
      calculateAndRecordEarnings s oid now = (some e, s)) ∧
    (∀ (s : State) (oid : Nat) (now : Int),
      (s.earnings.map VendorEarnings.orderId).Nodup →
      (((calculateAndRecordEarnings s oid now).2).earnings.map
        VendorEarnings.orderId).Nodup) := by
  refine ⟨?_, ?_, ?_⟩
  · intro s oid now order h hst
    exact calcEarnings_notCompleted s oid now order h hst
  · intro s oid now order e h hst he
    exact calcEarnings_existing s oid now order e h hst he
  · intro s oid now hnd
    cases hfo : findOrder s oid with
    | none =>
      rw [calcEarnings_notFound s oid now hfo]
      exact hnd
    | some order =>
      by_cases hst : order.status = OrderStatus.completed
      · cases he : s.earnings.find? (fun x => decide (x.orderId = oid)) with
        | some e =>
          rw [calcEarnings_existing s oid now order e hfo hst he]
          exact hnd
        | none =>
          cases hm : findMeal s order.mealId with
          | none =>
            rw [calcEarnings_noMeal s oid now order hfo hst he hm]
            exact hnd
          | some meal =>
            rw [calcEarnings_creates s oid now order meal hfo hst he hm]
            have hmem : ∀ x ∈ s.earnings, x.orderId ≠ oid := by
              intro x hx
              have := List.find?_eq_none.mp he x hx
              simpa using this
            have hoid : (mkEarningsRow order meal
                (getCurrentCommissionRate s now)).orderId = oid := by
              have := List.find?_some hfo
              rw [decide_eq_true_eq] at this
              simp [mkEarningsRow, this]
            show ((s.earnings ++
              [mkEarningsRow order meal (getCurrentCommissionRate s now)]).map
                VendorEarnings.orderId).Nodup
            rw [List.map_append, List.nodup_append]
            refine ⟨hnd, by simp, ?_⟩
            intro a ha hb
            simp only [List.map_cons, List.map_nil, List.mem_singleton] at hb
            rw [List.mem_map] at ha
            obtain ⟨x, hx, hxa⟩ := ha
            rw [hoid] at hb
            exact hmem x hx (by rw [hxa, hb])
      · rw [calcEarnings_notCompleted s oid now order hfo hst]
        exact hnd

/-- C6 witness: the theorem applied at concrete states — a PAID (not
COMPLETED) order is refused, and a COMPLETED order with an existing row
gets that row back unchanged. -/
theorem C6_record_earnings_requires_completed_and_idempotent_witness :
    calculateAndRecordEarnings
        ⟨[⟨1, OrderStatus.paid, none, 2, 10, 3, ⟨0, 2025, 1⟩, none⟩],
         [⟨10, 7, 1500, 5, 100, true⟩], [], [], [], []⟩ 1 0 =
      (none,
        ⟨[⟨1, OrderStatus.paid, none, 2, 10, 3, ⟨0, 2025, 1⟩, none⟩],
         [⟨10, 7, 1500, 5, 100, true⟩], [], [], [], []⟩) ∧
    calculateAndRecordEarnings
        ⟨[⟨1, OrderStatus.completed, none, 2, 10, 3, ⟨0, 2025, 1⟩, none⟩],
         [⟨10, 7, 1500, 5, 100, true⟩], [],
         [⟨1, 7, 3000, 0, 450, 2550, 2025, 1, false⟩], [], []⟩ 1 0 =
      (some ⟨1, 7, 3000, 0, 450, 2550, 2025, 1, false⟩,
        ⟨[⟨1, OrderStatus.completed, none, 2, 10, 3, ⟨0, 2025, 1⟩, none⟩],
         [⟨10, 7, 1500, 5, 100, true⟩], [],
         [⟨1, 7, 3000, 0, 450, 2550, 2025, 1, false⟩], [], []⟩) :=
  ⟨C6_record_earnings_requires_completed_and_idempotent.1 _ 1 0
      ⟨1, OrderStatus.paid, none, 2, 10, 3, ⟨0, 2025, 1⟩, none⟩ rfl (by decide),
   C6_record_earnings_requires_completed_and_idempotent.2.1 _ 1 0
      ⟨1, OrderStatus.completed, none, 2, 10, 3, ⟨0, 2025, 1⟩, none⟩
      ⟨1, 7, 3000, 0, 450, 2550, 2025, 1, false⟩ rfl rfl rfl⟩

/-- C5: the earnings split satisfies gross = price times quantity,
commission = gross times rate, net = gross minus commission, and
commission + net = gross exactly in the rational model of Decimal
arithmetic; every freshly created VendorEarnings row carries exactly these
values with the resolved rate; and Scenario A (price 1500, quantity 2,
rate 0.15) yields gross 3000, commission 450, net 2550. -/
theorem C5_earnings_split_exact :
    (∀ (price rate : ℚ) (quantity : Int),
      (computeEarnings price quantity rate).1 = price * quantity ∧
      (computeEarnings price quantity rate).2.1 =
        (computeEarnings price quantity rate).1 * rate ∧
      (computeEarnings price quantity rate).2.2 =
        (computeEarnings price quantity rate).1 -
          (computeEarnings price quantity rate).2.1 ∧
      (computeEarnings price quantity rate).2.1 +
          (computeEarnings price quantity rate).2.2 =
        (computeEarnings price quantity rate).1) ∧
    (∀ (s : State) (oid : Nat) (now : Int) (e : VendorEarnings) (s1 : State),
      calculateAndRecordEarnings s oid now = (some e, s1) →
      e ∉ s.earnings →
      ∃ order meal, findOrder s oid = some order ∧
        findMeal s order.mealId = some meal ∧
        e.commissionRate = getCurrentCommissionRate s now ∧
        e.grossAmount = meal.price * order.quantity ∧
        e.commissionAmount = e.grossAmount * e.commissionRate ∧
        e.netAmount = e.grossAmount - e.commissionAmount ∧
        e.commissionAmount + e.netAmount = e.grossAmount) ∧
    computeEarnings 1500 2 (15 / 100) = (3000, 450, 2550) := by
  refine ⟨?_, ?_, ?_⟩
  · intro price rate quantity
    refine ⟨rfl, rfl, rfl, ?_⟩
    show price * quantity * rate + (price * quantity - price * quantity * rate)
      = price * quantity
    ring
  · intro s oid now e s1 hrun hnew
    cases hfo : findOrder s oid with
    | none =>
      rw [calcEarnings_notFound s oid now hfo] at hrun
      simp at hrun
    | some order =>
      by_cases hst : order.status = OrderStatus.completed
      · cases he : s.earnings.find? (fun x => decide (x.orderId = oid)) with
        | some e0 =>
          rw [calcEarnings_existing s oid now order e0 hfo hst he] at hrun
          have he1 : e0 = e := by
            have := congrArg (fun x => x.1) hrun
            simpa using this
          subst he1
          exact absurd (List.mem_of_find?_eq_some he) hnew
        | none =>
          cases hm : findMeal s order.mealId with
          | none =>
            rw [calcEarnings_noMeal s oid now order hfo hst he hm] at hrun
            simp at hrun
          | some meal =>
            rw [calcEarnings_creates s oid now order meal hfo hst he hm] at hrun
            have hee : e = mkEarningsRow order meal
                (getCurrentCommissionRate s now) := by
              have := congrArg (fun x => x.1) hrun
              simpa using this.symm
            subst hee
            refine ⟨order, meal, rfl, hm, rfl, rfl, rfl, rfl, ?_⟩
            show meal.price * order.quantity * getCurrentCommissionRate s now +
              (meal.price * order.quantity -
                meal.price * order.quantity * getCurrentCommissionRate s now) =
              meal.price * order.quantity
            ring
      · rw [calcEarnings_notCompleted s oid now order hfo hst] at hrun
        simp at hrun
  · unfold computeEarnings
    norm_num [Prod.ext_iff]

/-- C5 witness: the row-creation conjunct applied at a concrete state
(price 10, quantity 2, configured commission rate 0).  The helper values
are the outputs of the run itself, so the hypotheses hold by computation. -/
theorem C5_earnings_split_exact_witness :
    ∃ order meal, findOrder
        ⟨[⟨1, OrderStatus.completed, none, 2, 10, 3, ⟨0, 2025, 1⟩, none⟩],
         [⟨10, 7, 10, 5, 100, true⟩], [⟨0, 0, none⟩], [], [], []⟩ 1 =
          some order ∧
      findMeal
        ⟨[⟨1, OrderStatus.completed, none, 2, 10, 3, ⟨0, 2025, 1⟩, none⟩],
         [⟨10, 7, 10, 5, 100, true⟩], [⟨0, 0, none⟩], [], [], []⟩
        order.mealId = some meal ∧
      ((calculateAndRecordEarnings
        ⟨[⟨1, OrderStatus.completed, none, 2, 10, 3, ⟨0, 2025, 1⟩, none⟩],
         [⟨10, 7, 10, 5, 100, true⟩], [⟨0, 0, none⟩], [], [], []⟩ 1 0).1.getD
          ⟨0, 0, 0, 0, 0, 0, 0, 0, false⟩).commissionRate =
        getCurrentCommissionRate
          ⟨[⟨1, OrderStatus.completed, none, 2, 10, 3, ⟨0, 2025, 1⟩, none⟩],
           [⟨10, 7, 10, 5, 100, true⟩], [⟨0, 0, none⟩], [], [], []⟩ 0 ∧
      ((calculateAndRecordEarnings
        ⟨[⟨1, OrderStatus.completed, none, 2, 10, 3, ⟨0, 2025, 1⟩, none⟩],
         [⟨10, 7, 10, 5, 100, true⟩], [⟨0, 0, none⟩], [], [], []⟩ 1 0).1.getD
          ⟨0, 0, 0, 0, 0, 0, 0, 0, false⟩).grossAmount =
        meal.price * order.quantity ∧
      ((calculateAndRecordEarnings
        ⟨[⟨1, OrderStatus.completed, none, 2, 10, 3, ⟨0, 2025, 1⟩, none⟩],
         [⟨10, 7, 10, 5, 100, true⟩], [⟨0, 0, none⟩], [], [], []⟩ 1 0).1.getD
          ⟨0, 0, 0, 0, 0, 0, 0, 0, false⟩).commissionAmount =
        ((calculateAndRecordEarnings
        ⟨[⟨1, OrderStatus.completed, none, 2, 10, 3, ⟨0, 2025, 1⟩, none⟩],
         [⟨10, 7, 10, 5, 100, true⟩], [⟨0, 0, none⟩], [], [], []⟩ 1 0).1.getD
          ⟨0, 0, 0, 0, 0, 0, 0, 0, false⟩).grossAmount *
        ((calculateAndRecordEarnings
        ⟨[⟨1, OrderStatus.completed, none, 2, 10, 3, ⟨0, 2025, 1⟩, none⟩],
         [⟨10, 7, 10, 5, 100, true⟩], [⟨0, 0, none⟩], [], [], []⟩ 1 0).1.getD
          ⟨0, 0, 0, 0, 0, 0, 0, 0, false⟩).commissionRate ∧
      ((calculateAndRecordEarnings
        ⟨[⟨1, OrderStatus.completed, none, 2, 10, 3, ⟨0, 2025, 1⟩, none⟩],
         [⟨10, 7, 10, 5, 100, true⟩], [⟨0, 0, none⟩], [], [], []⟩ 1 0).1.getD
          ⟨0, 0, 0, 0, 0, 0, 0, 0, false⟩).netAmount =
        ((calculateAndRecordEarnings
        ⟨[⟨1, OrderStatus.completed, none, 2, 10, 3, ⟨0, 2025, 1⟩, none⟩],
         [⟨10, 7, 10, 5, 100, true⟩], [⟨0, 0, none⟩], [], [], []⟩ 1 0).1.getD
          ⟨0, 0, 0, 0, 0, 0, 0, 0, false⟩).grossAmount -
        ((calculateAndRecordEarnings
        ⟨[⟨1, OrderStatus.completed, none, 2, 10, 3, ⟨0, 2025, 1⟩, none⟩],
         [⟨10, 7, 10, 5, 100, true⟩], [⟨0, 0, none⟩], [], [], []⟩ 1 0).1.getD
          ⟨0, 0, 0, 0, 0, 0, 0, 0, false⟩).commissionAmount ∧
      ((calculateAndRecordEarnings
        ⟨[⟨1, OrderStatus.completed, none, 2, 10, 3, ⟨0, 2025, 1⟩, none⟩],
         [⟨10, 7, 10, 5, 100, true⟩], [⟨0, 0, none⟩], [], [], []⟩ 1 0).1.getD
          ⟨0, 0, 0, 0, 0, 0, 0, 0, false⟩).commissionAmount +
        ((calculateAndRecordEarnings
        ⟨[⟨1, OrderStatus.completed, none, 2, 10, 3, ⟨0, 2025, 1⟩, none⟩],
         [⟨10, 7, 10, 5, 100, true⟩], [⟨0, 0, none⟩], [], [], []⟩ 1 0).1.getD
          ⟨0, 0, 0, 0, 0, 0, 0, 0, false⟩).netAmount =
        ((calculateAndRecordEarnings
        ⟨[⟨1, OrderStatus.completed, none, 2, 10, 3, ⟨0, 2025, 1⟩, none⟩],
         [⟨10, 7, 10, 5, 100, true⟩], [⟨0, 0, none⟩], [], [], []⟩ 1 0).1.getD
          ⟨0, 0, 0, 0, 0, 0, 0, 0, false⟩).grossAmount :=
  C5_earnings_split_exact.2.1 _ 1 0 _ _ rfl (by simp [mkEarningsRow])

/-- C4 counterexample: with one already-paid-out row (net 100) and one
unpaid row (net 50) in the period, the created payout request's amount is
150 — the period total — not the 50 the claim prescribes for unpaid rows
only. -/
theorem C4_cex_payout_includes_paid_rows :
    ((createMonthlyPayoutRequest
        ⟨[], [], [],
         [⟨1, 7, 1000, 0, 0, 100, 2025, 1, true⟩,
          ⟨2, 7, 500, 0, 0, 50, 2025, 1, false⟩], [], []⟩ 7 2025 1).1.map
      PayoutRequest.amount) = some 150 ∧
    unpaidMonthlyNet
      ⟨[], [], [],
       [⟨1, 7, 1000, 0, 0, 100, 2025, 1, true⟩,
        ⟨2, 7, 500, 0, 0, 50, 2025, 1, false⟩], [], []⟩ 7 2025 1 = 50 ∧
    (150 : ℚ) ≠ 50 := by
  refine ⟨?_, ?_, by norm_num⟩
  · norm_num [createMonthlyPayoutRequest, monthlyTotalNet]
  · norm_num [unpaidMonthlyNet]

/-- C4 (amended): when requestPayout creates a new PayoutRequest for a
vendor and period, its amount equals the sum of net_amount over all of
that vendor's VendorEarnings rows of that period at creation time — rows
already paid out included. -/
theorem C4_payout_amount_is_period_total (s : State) (vendorId : Nat)
    (year month : Int)
    (hnew : s.payouts.find? (fun p => decide (p.vendorId = vendorId) &&
      decide (p.periodYear = year) && decide (p.periodMonth = month)) = none)
    (hpos : 0 < monthlyTotalNet s vendorId year month) :
    createMonthlyPayoutRequest s vendorId year month =
      (some ⟨vendorId, monthlyTotalNet s vendorId year month, year, month,
        PayoutStatus.pending⟩,
       trackMetric { s with payouts := s.payouts ++
          [⟨vendorId, monthlyTotalNet s vendorId year month, year, month,
            PayoutStatus.pending⟩] } MetricType.payoutRequested vendorId) := by
  unfold createMonthlyPayoutRequest
  simp only [hnew]
  rw [if_neg (not_le.mpr hpos)]

/-- C4 witness: the amended theorem applied at a concrete state with a
paid-out and an unpaid row in the period. -/
theorem C4_payout_amount_is_period_total_witness :
    createMonthlyPayoutRequest
        ⟨[], [], [],
         [⟨1, 7, 1000, 0, 0, 100, 2025, 1, true⟩,
          ⟨2, 7, 500, 0, 0, 50, 2025, 1, false⟩], [], []⟩ 7 2025 1 =
      (some ⟨7, monthlyTotalNet
          ⟨[], [], [],
           [⟨1, 7, 1000, 0, 0, 100, 2025, 1, true⟩,
            ⟨2, 7, 500, 0, 0, 50, 2025, 1, false⟩], [], []⟩ 7 2025 1,
        2025, 1, PayoutStatus.pending⟩,
       trackMetric
         ⟨[], [], [],
          [⟨1, 7, 1000, 0, 0, 100, 2025, 1, true⟩,
           ⟨2, 7, 500, 0, 0, 50, 2025, 1, false⟩],
          [⟨7, monthlyTotalNet
            ⟨[], [], [],
             [⟨1, 7, 1000, 0, 0, 100, 2025, 1, true⟩,
              ⟨2, 7, 500, 0, 0, 50, 2025, 1, false⟩], [], []⟩ 7 2025 1,
            2025, 1, PayoutStatus.pending⟩], []⟩
         MetricType.payoutRequested 7) :=
  C4_payout_amount_is_period_total _ 7 2025 1 rfl
    (by norm_num [monthlyTotalNet])

/-- C9 counterexample: the inventory decrement applied by the confirmation
processor is the clamp `max(0, quantity - portions)`, which is not
equivalent to the guarded conditional UPDATE of the claim — at quantity 1
and portions 3 the processor writes 0 where the guarded update leaves 1. -/
theorem C9_cex_decrement_not_conditional_update :
    ((processPaymentWebhook
        ⟨[⟨1, OrderStatus.pending, some "p1", 3, 10, 3, ⟨0, 2025, 1⟩, none⟩],
         [⟨10, 7, 1500, 1, 100, true⟩], [], [], [], []⟩
        ⟨some "p1", some "completed", some 1⟩ none).2.meals.map Meal.quantity)
      = [0] ∧
    conditionalUpdateDecrement 1 3 = 1 ∧
    clampedDecrement 1 3 ≠ conditionalUpdateDecrement 1 3 := by
  refine ⟨rfl, rfl, by decide⟩

/-- Saving an order leaves the meals table untouched, so the meal lookup
agrees before and after. -/
theorem findMeal_saveOrder (s : State) (o : Order) (mid : Nat) :
    findMeal (saveOrder s o) mid = findMeal s mid := rfl

/-- The meals table after a confirmation: unchanged, or the found meal
replaced by its clamped decrement. -/
theorem processPaymentWebhook_meals_after (s : State) (data : WebhookData)
    (sig : Option String) :
    (processPaymentWebhook s data sig).2.meals = s.meals ∨
    ∃ meal n, findMeal s meal.id = some meal ∧
      (processPaymentWebhook s data sig).2.meals =
        s.meals.map (fun x => if x.id = meal.id then
          { meal with quantity := max 0 (meal.quantity - n) } else x) := by
  by_cases hval : validWebhook data = true
  · cases hfind : s.orders.find? (fun o => o.paymentId == data.paymentId) with
    | none =>
      rw [processPaymentWebhook_notFound s data sig hval hfind]
      exact Or.inl rfl
    | some order =>
      by_cases hp : order.status = OrderStatus.pending
      · unfold validWebhook at hval
        rw [Bool.not_eq_true'] at hval
        unfold processPaymentWebhook
        rw [hval, hfind]
        have hb : (order.status != OrderStatus.pending) = false := by simp [hp]
        simp only [hb, Bool.false_eq_true, if_false]
        cases hm : findMeal (saveOrder s { order with status := OrderStatus.paid })
            order.mealId with
        | none => exact Or.inl rfl
        | some meal =>
          refine Or.inr ⟨meal, order.quantity, ?_, ?_⟩
          · rw [findMeal_saveOrder] at hm
            have hmm : meal ∈ s.meals := List.mem_of_find?_eq_some hm
            have hid := List.find?_some hm
            rw [decide_eq_true_eq] at hid
            rw [← hid] at hm
            exact hm
          · simp only [hm, trackMetric, saveMeal]
            rfl
      · rw [processPaymentWebhook_nonPending s data sig order hval hfind hp]
        exact Or.inl rfl
  · have hf : validWebhook data = false := by simpa using hval
    rw [processPaymentWebhook_invalid s data sig hf]
    exact Or.inl rfl

/-- C9 (amended): the meal quantity never becomes negative — under any
interleaving of concurrent confirmation tasks, and across any single
confirmation — because every write stores the clamped decrement
`max(0, read - portions)`, not because the decrement is a guarded
conditional UPDATE (which it is not, see the counterexample). -/
theorem C9_quantity_never_negative :
    (∀ (init fin : CState), 0 ≤ init.quantity →
      Relation.ReflTransGen DecStep init fin → 0 ≤ fin.quantity) ∧
    (∀ (s : State) (data : WebhookData) (sig : Option String),
      (∀ m ∈ s.meals, 0 ≤ m.quantity) →
      ∀ m1 ∈ (processPaymentWebhook s data sig).2.meals, 0 ≤ m1.quantity) := by
  constructor
  · intro init fin h0 hsteps
    induction hsteps with
    | refl => exact h0
    | tail hab hbc ih =>
      cases hbc with
      | read q pre n post => exact ih
      | write q pre n v post =>
        show (0 : Int) ≤ clampedDecrement v n
        exact le_max_left 0 _
  · intro s data sig hmeals m1 hm1
    rcases processPaymentWebhook_meals_after s data sig with hsame | ⟨meal, n, -, hmap⟩
    · rw [hsame] at hm1
      exact hmeals m1 hm1
    · rw [hmap] at hm1
      rw [List.mem_map] at hm1
      obtain ⟨x, hx, hxm⟩ := hm1
      by_cases hxi : x.id = meal.id
      · rw [if_pos hxi] at hxm
        rw [← hxm]
        exact le_max_left 0 _
      · rw [if_neg hxi] at hxm
        rw [← hxm]
        exact hmeals x hx

/-- C9 witness: the interleaving invariant applied to a concrete
two-step execution starting from quantity 1 with a task decrementing 3,
and the single-confirmation conjunct at a concrete state. -/
theorem C9_quantity_never_negative_witness :
    ((0 : Int) ≤ (⟨1, [DecProc.ready 3]⟩ : CState).quantity ∧
      (0 : Int) ≤ (⟨0, [DecProc.done 3]⟩ : CState).quantity) ∧
    ∀ m1 ∈ (processPaymentWebhook
        ⟨[⟨1, OrderStatus.pending, some "p1", 3, 10, 3, ⟨0, 2025, 1⟩, none⟩],
         [⟨10, 7, 1500, 1, 100, true⟩], [], [], [], []⟩
        ⟨some "p1", some "completed", some 1⟩ none).2.meals, 0 ≤ m1.quantity :=
  ⟨⟨by decide,
    C9_quantity_never_negative.1 ⟨1, [DecProc.ready 3]⟩ ⟨0, [DecProc.done 3]⟩
      (by decide)
      (Relation.ReflTransGen.tail
        (Relation.ReflTransGen.tail Relation.ReflTransGen.refl
          (DecStep.read 1 [] 3 []))
        (DecStep.write 1 [] 3 1 []))⟩,
   C9_quantity_never_negative.2 _ _ none (by decide)⟩

/-- C2 counterexample: the admin cancel command moves a COMPLETED order to
CANCELLED — an edge outside the claimed monotone chains, so a status
history PENDING→PAID→COMPLETED→CANCELLED is observable. -/
theorem C2_cex_cancel_moves_completed_order :
    (findOrder (applyOp
        ⟨[⟨1, OrderStatus.completed, none, 1, 10, 3, ⟨0, 2025, 1⟩, none⟩],
         [], [], [], [], []⟩ (Op.cancel true 1)) 1).map Order.status =
      some OrderStatus.cancelled ∧
    (findOrder
        ⟨[⟨1, OrderStatus.completed, none, 1, 10, 3, ⟨0, 2025, 1⟩, none⟩],
         [], [], [], [], []⟩ 1).map Order.status = some OrderStatus.completed ∧
    ¬ claimEdge OrderStatus.completed OrderStatus.cancelled :=
  ⟨rfl, rfl, by decide⟩

/-- C2 (amended): under every lifecycle operation an order's status either
stays put, or moves along PENDING→PAID or PAID→COMPLETED, or is cancelled
from any status — so CANCELLED is terminal but COMPLETED is not; and an
order that first appears after an operation starts PENDING. -/
theorem C2_status_edges_monotone_with_cancel :
    (∀ (s : State) (op : Op) (oid : Nat) (o o1 : Order),
      uniqueOrderIds s → opWf s op →
      findOrder s oid = some o →
      findOrder (applyOp s op) oid = some o1 →
      codeEdge o.status o1.status) ∧
    (∀ (s : State) (op : Op) (oid : Nat) (o1 : Order),
      opWf s op →
      findOrder s oid = none →
      findOrder (applyOp s op) oid = some o1 →
      o1.status = OrderStatus.pending) := by
  constructor
  · intro s op oid o o1 hids hwf hb ha
    cases op with
    | buy mealId count consumerId newOrderId createdAt pid =>
      rcases buy_orders_after s mealId count consumerId newOrderId createdAt
          pid hwf with hsame | ⟨onew, hst, hid2, happ⟩
      · have h2 : findOrder (applyOp s
            (Op.buy mealId count consumerId newOrderId createdAt pid)) oid =
            findOrder s oid := findOrder_eq_orders hsame oid
        rw [h2, hb] at ha
        injection ha with ha
        subst ha
        exact Or.inl rfl
      · have h2 : findOrder (applyOp s
            (Op.buy mealId count consumerId newOrderId createdAt pid)) oid =
            (s.orders ++ [onew]).find? (fun x => decide (x.id = oid)) := by
          show ((applyOp s (Op.buy mealId count consumerId newOrderId
            createdAt pid)).orders.find? (fun x => decide (x.id = oid))) = _
          rw [show (applyOp s (Op.buy mealId count consumerId newOrderId
            createdAt pid)).orders = s.orders ++ [onew] from happ]
        rw [h2, List.find?_append] at ha
        rw [show s.orders.find? (fun x => decide (x.id = oid)) = some o
          from hb] at ha
        injection ha with ha
        subst ha
        exact Or.inl rfl
    | webhook data sig =>
      by_cases hval : validWebhook data = true
      · cases hfind : s.orders.find? (fun x => x.paymentId == data.paymentId) with
        | none =>
          have hs : applyOp s (Op.webhook data sig) = s := by
            show (processPaymentWebhook s data sig).2 = s
            rw [processPaymentWebhook_notFound s data sig hval hfind]
          rw [hs, hb] at ha
          injection ha with ha
          subst ha
          exact Or.inl rfl
        | some order =>
          by_cases hp : order.status = OrderStatus.pending
          · have horders := processPaymentWebhook_orders_after s data sig
              order hval hfind hp
            have h2 : findOrder (applyOp s (Op.webhook data sig)) oid =
                findOrder (saveOrder s
                  { order with status := OrderStatus.paid }) oid :=
              findOrder_eq_orders horders oid
            rw [h2] at ha
            rcases edge_after_save s _ o o1 oid hb ha with he | ⟨he, hidq⟩
            · subst he
              exact Or.inl rfl
            · have hidq2 : o.id = order.id := hidq
              have hoid : o.id = oid := by
                have := List.find?_some hb
                simpa using this
              have hordmem : order ∈ s.orders := List.mem_of_find?_eq_some hfind
              have hfo2 : findOrder s order.id = some o := by
                rw [← hidq2, hoid]
                exact hb
              have hoo : o = order := findOrder_eq_of_mem s hids o order
                hordmem hfo2
              refine Or.inr (Or.inl ⟨?_, ?_⟩)
              · rw [hoo, hp]
              · rw [he]
          · have hs : applyOp s (Op.webhook data sig) = s := by
              show (processPaymentWebhook s data sig).2 = s
              rw [processPaymentWebhook_nonPending s data sig order hval
                hfind hp]
            rw [hs, hb] at ha
            injection ha with ha
            subst ha
            exact Or.inl rfl
      · have hf : validWebhook data = false := by simpa using hval
        have hs : applyOp s (Op.webhook data sig) = s := by
          show (processPaymentWebhook s data sig).2 = s
          rw [processPaymentWebhook_invalid s data sig hf]
        rw [hs, hb] at ha
        injection ha with ha
        subst ha
        exact Or.inl rfl
    | complete vendorId approved orderId now =>
      rcases complete_after s vendorId approved orderId now with
        hsame | ⟨order, hford, hpaid, horders⟩
      · rw [show applyOp s (Op.complete vendorId approved orderId now) = s
          from hsame, hb] at ha
        injection ha with ha
        subst ha
        exact Or.inl rfl
      · have h2 : findOrder (applyOp s
            (Op.complete vendorId approved orderId now)) oid =
            findOrder (saveOrder s { order with
              status := OrderStatus.completed, completedAt := some now }) oid :=
          findOrder_eq_orders horders oid
        rw [h2] at ha
        rcases edge_after_save s _ o o1 oid hb ha with he | ⟨he, hidq⟩
        · subst he
          exact Or.inl rfl
        · have hidq2 : o.id = order.id := hidq
          have hoid : o.id = oid := by
            have := List.find?_some hb
            simpa using this
          have hoid2 : order.id = orderId := by
            have := List.find?_some hford
            simpa using this
          have hbb : findOrder s orderId = some o := by
            rw [← hoid2, ← hidq2, hoid]
            exact hb
          rw [hford] at hbb
          injection hbb with hbb
          refine Or.inr (Or.inr (Or.inl ⟨?_, ?_⟩))
          · rw [← hbb, hpaid]
          · rw [he]
    | cancel adm orderId =>
      rcases cancel_after s adm orderId with hsame | ⟨order, hford, horders⟩
      · rw [show applyOp s (Op.cancel adm orderId) = s from hsame, hb] at ha
        injection ha with ha
        subst ha
        exact Or.inl rfl
      · have h2 : findOrder (applyOp s (Op.cancel adm orderId)) oid =
            findOrder (saveOrder s
              { order with status := OrderStatus.cancelled }) oid :=
          findOrder_eq_orders horders oid
        rw [h2] at ha
        rcases edge_after_save s _ o o1 oid hb ha with he | ⟨he, hidq⟩
        · subst he
          exact Or.inl rfl
        · refine Or.inr (Or.inr (Or.inr ?_))
          rw [he]
    | cleanup cutoff =>
      have h2 : findOrder (applyOp s (Op.cleanup cutoff)) oid =
          (findOrder s oid).map (fun x =>
            if x.status == OrderStatus.pending &&
                decide (x.createdAt.epoch < cutoff)
            then { x with status := OrderStatus.cancelled } else x) :=
        cleanup_findOrder s cutoff oid
      rw [h2, hb] at ha
      simp only [Option.map_some'] at ha
      injection ha with ha
      by_cases hc : (o.status == OrderStatus.pending &&
          decide (o.createdAt.epoch < cutoff)) = true
      · rw [if_pos hc] at ha
        refine Or.inr (Or.inr (Or.inr ?_))
        rw [← ha]
      · rw [if_neg hc] at ha
        subst ha
        exact Or.inl rfl
  · intro s op oid o1 hwf hb ha
    cases op with
    | buy mealId count consumerId newOrderId createdAt pid =>
      rcases buy_orders_after s mealId count consumerId newOrderId createdAt
          pid hwf with hsame | ⟨onew, hst, hid2, happ⟩
      · have h2 : findOrder (applyOp s
            (Op.buy mealId count consumerId newOrderId createdAt pid)) oid =
            findOrder s oid := findOrder_eq_orders hsame oid
        rw [h2, hb] at ha
        exact absurd ha (by simp)
      · have h2 : findOrder (applyOp s
            (Op.buy mealId count consumerId newOrderId createdAt pid)) oid =
            (s.orders ++ [onew]).find? (fun x => decide (x.id = oid)) := by
          show ((applyOp s (Op.buy mealId count consumerId newOrderId
            createdAt pid)).orders.find? (fun x => decide (x.id = oid))) = _
          rw [show (applyOp s (Op.buy mealId count consumerId newOrderId
            createdAt pid)).orders = s.orders ++ [onew] from happ]
        rw [h2, List.find?_append] at ha
        rw [show s.orders.find? (fun x => decide (x.id = oid)) = none
          from hb] at ha
        by_cases hc : decide (onew.id = oid) = true
        · simp only [List.find?_cons, List.find?_nil, hc] at ha
          have : onew = o1 := by
            cases ha
            rfl
          rw [← this]
          exact hst
        · rw [Bool.not_eq_true] at hc
          simp only [List.find?_cons, List.find?_nil, hc] at ha
          cases ha
    | webhook data sig =>
      by_cases hval : validWebhook data = true
      · cases hfind : s.orders.find? (fun x => x.paymentId == data.paymentId) with
        | none =>
          have hs : applyOp s (Op.webhook data sig) = s := by
            show (processPaymentWebhook s data sig).2 = s
            rw [processPaymentWebhook_notFound s data sig hval hfind]
          rw [hs, hb] at ha
          cases ha
        | some order =>
          by_cases hp : order.status = OrderStatus.pending
          · have horders := processPaymentWebhook_orders_after s data sig
              order hval hfind hp
            have h2 : findOrder (applyOp s (Op.webhook data sig)) oid =
                findOrder (saveOrder s
                  { order with status := OrderStatus.paid }) oid :=
              findOrder_eq_orders horders oid
            rw [h2, findOrder_saveOrder_none s _ oid hb] at ha
            cases ha
          · have hs : applyOp s (Op.webhook data sig) = s := by
              show (processPaymentWebhook s data sig).2 = s
              rw [processPaymentWebhook_nonPending s data sig order hval
                hfind hp]
            rw [hs, hb] at ha
            cases ha
      · have hf : validWebhook data = false := by simpa using hval
        have hs : applyOp s (Op.webhook data sig) = s := by
          show (processPaymentWebhook s data sig).2 = s
          rw [processPaymentWebhook_invalid s data sig hf]
        rw [hs, hb] at ha
        cases ha
    | complete vendorId approved orderId now =>
      rcases complete_after s vendorId approved orderId now with
        hsame | ⟨order, hford, hpaid, horders⟩
      · rw [show applyOp s (Op.complete vendorId approved orderId now) = s
          from hsame, hb] at ha
        cases ha
      · have h2 : findOrder (applyOp s
            (Op.complete vendorId approved orderId now)) oid =
            findOrder (saveOrder s { order with
              status := OrderStatus.completed, completedAt := some now }) oid :=
          findOrder_eq_orders horders oid
        rw [h2, findOrder_saveOrder_none s _ oid hb] at ha
        cases ha
    | cancel adm orderId =>
      rcases cancel_after s adm orderId with hsame | ⟨order, hford, horders⟩
      · rw [show applyOp s (Op.cancel adm orderId) = s from hsame, hb] at ha
        cases ha
      · have h2 : findOrder (applyOp s (Op.cancel adm orderId)) oid =
            findOrder (saveOrder s
              { order with status := OrderStatus.cancelled }) oid :=
          findOrder_eq_orders horders oid
        rw [h2, findOrder_saveOrder_none s _ oid hb] at ha
        cases ha
    | cleanup cutoff =>
      have h2 : findOrder (applyOp s (Op.cleanup cutoff)) oid =
          (findOrder s oid).map (fun x =>
            if x.status == OrderStatus.pending &&
                decide (x.createdAt.epoch < cutoff)
            then { x with status := OrderStatus.cancelled } else x) :=
        cleanup_findOrder s cutoff oid
      rw [h2, hb] at ha
      cases ha

/-- C2 witness: the amended theorem applied at a concrete state — the
cleanup task cancels a timed-out PENDING order, a PENDING→CANCELLED
edge. -/
theorem C2_status_edges_monotone_with_cancel_witness :
    codeEdge OrderStatus.pending OrderStatus.cancelled :=
  C2_status_edges_monotone_with_cancel.1
    ⟨[⟨1, OrderStatus.pending, none, 1, 10, 3, ⟨0, 2025, 1⟩, none⟩],
     [], [], [], [], []⟩
    (Op.cleanup 5) 1
    ⟨1, OrderStatus.pending, none, 1, 10, 3, ⟨0, 2025, 1⟩, none⟩
    ⟨1, OrderStatus.cancelled, none, 1, 10, 3, ⟨0, 2025, 1⟩, none⟩
    (by decide) trivial rfl rfl

/-- C3 counterexample: a webhook whose status is `"failed"` (not
`"completed"`) is answered with HTTP 400 by the endpoint, not with the
success code 200 the claim states. -/
theorem C3_cex_non_completed_status_is_rejected :
    (handlePaymentWebhook
      ⟨[⟨1, OrderStatus.pending, some "p1", 2, 10, 3, ⟨0, 2025, 1⟩, none⟩],
       [], [], [], [], []⟩
      ⟨some "p1", some "failed", some 1⟩ none).1 = 400 ∧ (400 : Nat) ≠ 200 := by
  constructor
  · rfl
  · decide

/-- C3 (amended): for every webhook payload whose status field differs from
`"completed"`, the processor used by the HTTP endpoint reports failure, the
endpoint answers 400, and no state change is performed. -/
theorem C3_non_completed_webhook_rejected_no_change (s : State)
    (data : WebhookData) (sig : Option String)
    (h : data.status ≠ some "completed") :
    processPaymentWebhook s data sig = (false, s) ∧
    handlePaymentWebhook s data sig = (400, s) := by
  have hg : (data.status == some "completed") = false := by
    simpa using h
  constructor
  · unfold processPaymentWebhook
    rw [hg]
    simp
  · unfold handlePaymentWebhook processPaymentWebhook
    rw [hg]
    simp

/-- C3 witness: the amended theorem applied at a concrete state and
payload. -/
theorem C3_non_completed_webhook_rejected_no_change_witness :
    processPaymentWebhook
        ⟨[⟨1, OrderStatus.pending, some "p1", 2, 10, 3, ⟨0, 2025, 1⟩, none⟩],
         [], [], [], [], []⟩
        ⟨some "p1", some "pending", some 1⟩ none =
      (false,
        ⟨[⟨1, OrderStatus.pending, some "p1", 2, 10, 3, ⟨0, 2025, 1⟩, none⟩],
         [], [], [], [], []⟩) :=
  (C3_non_completed_webhook_rejected_no_change _ _ none (by decide)).1

end AsBolsyn
